import Mathlib

/-!
Verification of the ABC-notation music generator.

Shallow embedding conventions:
* JavaScript strings are modelled as `List Char` (`Str`); `'\n'` is treated as
  the sole line terminator (all modelled inputs use `'\n'` line endings).
* The JS regex operations of `parseAbcResponse` (src/unnamed/part_000, lines
  113-154) are translated character-by-character below; each definition's doc
  comment names the regex it embeds.  JS `\s` matches whitespace *including*
  line terminators, which is faithfully preserved (this matters: `/^T:\s*(.*)$/m`
  can skip over a newline after `T:`).
* The React component `MusicDisplay` (src/components/MusicDisplay.tsx) is
  modelled as a state-transition function over an explicit `EffectState`;
  the external abcjs collaborator and the async init/prime outcomes are
  parameters of an environment record.
-/

abbrev Str := List Char

/-- JS whitespace class `\s` / `trim`, restricted to the ASCII characters that
occur in the modelled inputs (space, tab, newline, carriage return, vertical
tab, form feed). -/
def isSpace (c : Char) : Bool :=
  c == ' ' || c == '\t' || c == '\n' || c == '\r' || c == '\x0b' || c == '\x0c'

/-- The character class `[a-gA-G]` from line 148 of the source ("pitch letter"). -/
def isPitch (c : Char) : Bool :=
  ('a' ≤ c && c ≤ 'g') || ('A' ≤ c && c ≤ 'G')

/-- Embeds `s.match(/X/)` for a single character `X`: does the string contain `c`? -/
def hasChar (c : Char) (s : Str) : Bool := s.any (fun x => x == c)

/-- Embeds `s.match(/[a-gA-G]/)`: does the string contain a pitch letter? -/
def hasPitch (s : Str) : Bool := s.any isPitch

/-- Left part of `String.prototype.trim`. -/
def trimLeft (s : Str) : Str := s.dropWhile isSpace

/-- Right part of `String.prototype.trim`. -/
def trimRight (s : Str) : Str := (s.reverse.dropWhile isSpace).reverse

/-- Embeds `String.prototype.trim` (line 115). -/
def trim (s : Str) : Str := trimRight (trimLeft s)

/-- Embeds `abcText.replace()` with the regex of line 115 scanning left to right,
removing each occurrence of three backticks followed by `abc` (the optional
group is tried greedily first) or of three bare backticks; all other
characters are kept. -/
def stripFences : Str → Str
  | [] => []
  | '`' :: '`' :: '`' :: 'a' :: 'b' :: 'c' :: rest => stripFences rest
  | '`' :: '`' :: '`' :: rest => stripFences rest
  | c :: rest => c :: stripFences rest

/-- Does the string start with `':'`?  Used to express "the character after the
header letter is a colon". -/
def headColon : Str → Bool
  | c :: _ => c == ':'
  | [] => false

/-- Line-start flag after scanning a chunk of text: the next character is at a
line start iff the chunk is empty and we were at a line start, or the chunk
ends with a newline. -/
def lsAfter (b : Bool) : Str → Bool
  | [] => b
  | c :: rest => lsAfter (c == '\n') rest

/-- Does the text contain a line beginning with `h:` (a multiline-anchored
`^h:` occurrence)?  `b` says whether the scan starts at a line start. -/
def hasHdr (h : Char) : Bool → Str → Bool
  | _, [] => false
  | b, c :: rest => (b && (c == h) && headColon rest) || hasHdr h (c == '\n') rest

/-- Number of line-start occurrences of `h:` in the text. -/
def countHdr (h : Char) : Bool → Str → Nat
  | _, [] => 0
  | b, c :: rest =>
    (if b && (c == h) && headColon rest then 1 else 0) + countHdr h (c == '\n') rest

/-- Capture group of `/^T:\s*(.*)$/m` once positioned right after the `T`:
skip the colon, greedily skip `\s*` (which may cross newlines), then take the
rest of the line (`.` does not match a newline; `$` then matches). -/
def titleCapture : Str → Str
  | c :: r2 =>
    if c == ':' then (r2.dropWhile isSpace).takeWhile (fun x => !(x == '\n')) else []
  | [] => []

/-- Embeds `cleanedAbc.match` with `/^T:\s*(.*)$/m` (line 118): the capture group of the
first match, scanning positions left to right; a match requires a line-start
`T:`.  The greedy `\s* (.*) $` suffix always succeeds, so the first line-start
`T:` gives the match. -/
def findTitleFrom : Bool → Str → Option Str
  | _, [] => none
  | b, c :: rest =>
    if b && (c == 'T') && headColon rest then some (titleCapture rest)
    else findTitleFrom (c == '\n') rest

/-- Matching tail of `/^X:\s*1$/m` after `X:`: greedy `\s*` (maximal, since a shorter
whitespace run would leave a whitespace character where `1` is required), then
`1`, then `$` (end of string or before a newline). -/
def xTailOk (l : Str) : Bool :=
  match l.dropWhile isSpace with
  | '1' :: [] => true
  | '1' :: '\n' :: _ => true
  | _ => false

/-- Colon-guarded tail test for the index-line regex. -/
def xColonTail : Str → Bool
  | c :: r2 => c == ':' && xTailOk r2
  | [] => false

/-- Embeds `cleanedAbc.match` with `/^X:\s*1$/m` (line 128). -/
def hasXOne : Bool → Str → Bool
  | _, [] => false
  | b, c :: rest => (b && (c == 'X') && xColonTail rest) || hasXOne (c == '\n') rest

/-- Matching tail of `/^h:\s*.*\n/m` after the header letter: since `\s` matches the
newline and `.` matches every non-newline character, `\s*.*\n` matches a prefix
of the remaining text iff that text contains a newline anywhere. -/
def hdrNlTail : Str → Bool
  | c :: r2 => c == ':' && r2.any (fun x => x == '\n')
  | [] => false

/-- Embeds `cleanedAbc.match` with `/^K:\s*.*\n/m` and its `M:`/`Q:` analogues
(lines 133, 138, 143). -/
def hasHeaderNl (h : Char) : Bool → Str → Bool
  | _, [] => false
  | b, c :: rest => (b && (c == h) && hdrNlTail rest) || hasHeaderNl h (c == '\n') rest

/-- Rest of the current line (`.*` of `/(^X:.*)/m`). -/
def takeToEol (l : Str) : Str := l.takeWhile (fun x => !(x == '\n'))

/-- Remainder after the current line's content (starts with `'\n'` or empty). -/
def dropToEol (l : Str) : Str := l.dropWhile (fun x => !(x == '\n'))

/-- Embeds `cleanedAbc.replace` with pattern `/(^X:.*)/m` (lines 134, 139, 144):
non-global replace; at the first line-start `X:` the matched line `$1` is kept
and `ins` (which carries the leading `'\n'` of the replacement template) is
inserted right after it; if there is no line-start `X:` the string is
unchanged. -/
def insertAfterX (ins : Str) : Bool → Str → Str
  | _, [] => []
  | b, c :: rest =>
    if b && (c == 'X') && headColon rest then
      c :: takeToEol rest ++ ins ++ dropToEol rest
    else c :: insertAfterX ins (c == '\n') rest

/-- The default title `"Untitled Composition"` (lines 117, 123, 124). -/
def defaultTitle : Str := "Untitled Composition".data

/-- The prepended default title line `"T:Untitled Composition\n"` (line 123). -/
def defaultTitleLine : Str := 'T' :: ':' :: defaultTitle ++ ['\n']

/-- The prepended index line `"X:1\n"` (line 129). -/
def xLine : Str := 'X' :: ':' :: '1' :: ['\n']

/-- Inserted key material `"\nK:C"` (line 134). -/
def kIns : Str := '\n' :: 'K' :: ':' :: ['C']

/-- Inserted meter material `"\nM:4/4"` (line 139). -/
def mIns : Str := '\n' :: 'M' :: ':' :: ['4', '/', '4']

/-- Inserted tempo material `"\nQ:1/4=120"` (line 144). -/
def qIns : Str := '\n' :: 'Q' :: ':' :: "1/4=120".data

/-- Appended placeholder bar `"\nC |"` (line 150). -/
def placeholderBar : Str := '\n' :: 'C' :: ' ' :: ['|']

/-- Lines 117-125: extract the title.  JS `titleMatch && titleMatch[1]` is
falsy when there is no match *or* the captured group is the empty string; in
both cases the default title is used and the default title line is prepended.
Returns `(title, body)`. -/
def titleStep (s : Str) : Str × Str :=
  match findTitleFrom true s with
  | some g => if g = [] then (defaultTitle, defaultTitleLine ++ s) else (g, s)
  | none => (defaultTitle, defaultTitleLine ++ s)

/-- Lines 128-130: ensure `X:1` is present. -/
def xStep (s : Str) : Str := if hasXOne true s then s else xLine ++ s

/-- Lines 133-145 (one of the three): ensure a `h:` header line followed by a
newline is present; otherwise insert `ins` after the first `X:` line. -/
def headerStep (h : Char) (ins : Str) (s : Str) : Str :=
  if hasHeaderNl h true s then s else insertAfterX ins true s

/-- Lines 148-151: if the document contains neither a bar separator nor a
pitch letter, append the placeholder bar. -/
def contentStep (s : Str) : Str :=
  if !(hasChar '|' s) && !(hasPitch s) then s ++ placeholderBar else s

/-- The structurally-completed text: everything `parseAbcResponse` does before
the content-presence check (lines 113-145). -/
def structComplete (raw : Str) : Str :=
  headerStep 'Q' qIns
    (headerStep 'M' mIns
      (headerStep 'K' kIns
        (xStep (titleStep (trim (stripFences raw))).2)))

/-- Result record of `parseAbcResponse`; `body` is the `abcNotation` field of
the source. -/
structure ParseResult where
  title : Str
  body : Str
  deriving Repr, DecidableEq

/-- Embeds `parseAbcResponse` (src/unnamed/part_000, lines 113-154). -/
def parseAbcResponse (raw : Str) : ParseResult :=
  ⟨(titleStep (trim (stripFences raw))).1, contentStep (structComplete raw)⟩

/-- The constructed Gemini client (line 111); only obtainable when the
credential check passed. -/
structure GenAI where
  apiKey : Str
  deriving Repr, DecidableEq

/-- The startup error message thrown at line 108. -/
def configErrMsg : Str :=
  "VITE_GEMINI_API_KEY environment variable is missing or invalid. Please configure your API key to use the Gemini API.".data

/-- Lines 104-111: module initialization of the service.  `API_KEY` is the
environment value (`none` when the variable is unset); JS `!API_KEY` is true
for `undefined` and for the empty string, and then the module throws before
the client is constructed. -/
def initGeminiService (apiKey : Option Str) : Except Str GenAI :=
  match apiKey with
  | none => .error configErrMsg
  | some k => if k = [] then .error configErrMsg else .ok ⟨k⟩

/-- Error thrown at line 169 when the model returns no text. -/
def emptyRespMsg : Str := "Music generation failed to return any text.".data

/-- Embeds `generateMusic` (lines 156-178), with the external model call abstracted
as its returned text (`none` models an absent `response.text`).  Requires a
constructed client, which exists only if `initGeminiService` succeeded. -/
def generateMusic (_ai : GenAI) (modelText : Option Str) : Except Str ParseResult :=
  match modelText with
  | none => .error emptyRespMsg
  | some t => if t = [] then .error emptyRespMsg else .ok (parseAbcResponse t)

/-- Environment of one run of the `MusicDisplay` effect (lines 30-94):
whether the global `ABCJS` collaborator is loaded, its `renderAbc` result
(list of visual objects; empty on parse failure), and the outcomes of the
asynchronous `midiBuffer.init` and `midiBuffer.prime` steps. -/
structure EffectEnv where
  abcjsLoaded : Bool
  renderAbc : Str → Nat → List Nat
  initResult : Except Str Unit
  primeResult : Except Str Unit

/-- Observable state of the `MusicDisplay` component: the contents written
into the visual container (`visualRef`), whether the playback controls were
rendered into the audio container, the `renderError` React state, and
cumulative collaborator-call counters (synthesizer constructions, audio
contexts created, audio contexts closed). -/
structure EffectState where
  visualDom : List Nat
  audioDom : Bool
  renderError : Option Str
  synthCount : Nat
  ctxCreated : Nat
  ctxClosed : Nat
  deriving Repr, DecidableEq

/-- The pristine component state (fresh mount, effect not yet run). -/
def EffectState.initial : EffectState := ⟨[], false, none, 0, 0, 0⟩

/-- Error message set at line 56 when the visual render returns no objects. -/
def visualErrorMsg : Str :=
  "Failed to render sheet music visually. This usually means the generated ABC notation is invalid or incomplete.".data

/-- Error message set at line 80 on an audio init/prime rejection, with the
underlying failure text appended. -/
def audioErrorMsg (e : Str) : Str :=
  "Could not prepare audio for playback. This can happen if the ABC notation is malformed or if the browser blocks audio. Error: ".data ++ e

/-- Embeds the `useEffect` body of `MusicDisplay` (lines 30-94) as a state
transition.  Early return when the collaborator is missing, the notation is
empty, or the container refs are absent (line 37).  Otherwise: clear previous
renders and errors (lines 43-45); render visually (line 54); on an empty
result set the visual error and stop (lines 55-60); otherwise construct a
synthesizer and a fresh `AudioContext` (lines 63-64), then run `init` and
`prime`; a rejection of either sets the audio error and closes the context
(lines 79-87); on success render the playback controls (line 77).  Note the
effect has no cleanup function: a previous run's audio context is never
closed here. -/
def runEffect (env : EffectEnv) (abc : Str) (width : Nat) (refsPresent : Bool)
    (st : EffectState) : EffectState :=
  if env.abcjsLoaded = false ∨ abc = [] ∨ refsPresent = false then st
  else
    let st1 : EffectState := { st with visualDom := [], audioDom := false, renderError := none }
    match env.renderAbc abc width with
    | [] => { st1 with renderError := some visualErrorMsg }
    | v :: vs =>
      let st2 : EffectState := { st1 with visualDom := v :: vs,
                                          synthCount := st1.synthCount + 1,
                                          ctxCreated := st1.ctxCreated + 1 }
      match env.initResult with
      | .error e => { st2 with renderError := some (audioErrorMsg e),
                               ctxClosed := st2.ctxClosed + 1 }
      | .ok _ =>
        match env.primeResult with
        | .error e => { st2 with renderError := some (audioErrorMsg e),
                                 ctxClosed := st2.ctxClosed + 1 }
        | .ok _ => { st2 with audioDom := true }

/-- What the component tree shows in the score area (lines 187-202): when
`renderError` is set, the error box is rendered *instead of* the sheet-music
container (the ternary unmounts the `visualRef` div); otherwise the sheet
container with its contents is shown. -/
inductive View where
  | errorBox (msg : Str)
  | sheet (content : List Nat)
  deriving Repr, DecidableEq

/-- Embeds the JSX conditional of lines 187-202. -/
def renderView (st : EffectState) : View :=
  match st.renderError with
  | some m => View.errorBox m
  | none => View.sheet st.visualDom

/-- Environment for `handleDownloadMidi` (lines 96-140): collaborator
availability, its `renderAbc` into the dummy div (no width option), the
`init` outcome, and the `getMidiFile` outcome (the audio bytes). -/
structure ExportEnv where
  abcjsLoaded : Bool
  renderAbc : Str → List Nat
  initResult : Except Str Unit
  midiBytes : Except Str (List Nat)

/-- Outcome of a MIDI export attempt: a specific alert before any work, the
generic failure alert from the catch block, or a downloaded file. -/
inductive ExportOutcome where
  | alertMsg (msg : Str)
  | failAlert
  | downloaded (bytes : List Nat) (filename : Str)
  deriving Repr, DecidableEq

/-- Export result together with audio-context accounting for this call. -/
structure ExportResult where
  outcome : ExportOutcome
  ctxCreated : Nat
  ctxClosed : Nat
  deriving Repr, DecidableEq

/-- Alert shown at line 98. -/
def noMusicMsg : Str := "No music to export.".data

/-- Alert shown at line 103. -/
def noLibMsg : Str := "ABCJS library is not loaded. Cannot export MIDI.".data

/-- Embeds `handleDownloadMidi` (lines 96-140).  It consults only its own
arguments: empty notation and a missing collaborator alert early; inside the
`try`, a missing visual ref, an empty `renderAbc` result, an `init` rejection
or a `getMidiFile` rejection all land in the catch block's generic alert.  On
success the bytes are downloaded as `(title || 'untitled') + '.mid'`
(line 131).  The `AudioContext` passed to `init` (line 123) is created
whenever `init` is reached and is never closed. -/
def handleDownloadMidi (env : ExportEnv) (title abc : Str)
    (visualRefPresent : Bool) : ExportResult :=
  if abc = [] then ⟨.alertMsg noMusicMsg, 0, 0⟩
  else if env.abcjsLoaded = false then ⟨.alertMsg noLibMsg, 0, 0⟩
  else if visualRefPresent = false then ⟨.failAlert, 0, 0⟩
  else
    match env.renderAbc abc with
    | [] => ⟨.failAlert, 0, 0⟩
    | _ :: _ =>
      match env.initResult with
      | .error _ => ⟨.failAlert, 1, 0⟩
      | .ok _ =>
        match env.midiBytes with
        | .error _ => ⟨.failAlert, 1, 0⟩
        | .ok bytes =>
          ⟨.downloaded bytes ((if title = [] then "untitled".data else title) ++ ".mid".data), 1, 0⟩

/-! ### Helper lemmas about line-start scanning -/

theorem lsAfter_append (a a' : Str) (b : Bool) :
    lsAfter b (a ++ a') = lsAfter (lsAfter b a) a' := by
  induction a generalizing b with
  | nil => rfl
  | cons c a ih => exact ih (c == '\n')

theorem headColon_append_true (u w : Str) (h : headColon u = true) :
    headColon (u ++ w) = true := by
  cases u with
  | nil => simp [headColon] at h
  | cons c u' => simpa [headColon] using h

theorem headColon_append_false (u w : Str) (hu : headColon u = false)
    (hw : headColon w = false) : headColon (u ++ w) = false := by
  cases u with
  | nil => exact hw
  | cons c u' => simpa [headColon] using hu

theorem hasHdr_cons2 (h : Char) (w : Str) : hasHdr h true (h :: ':' :: w) = true := by
  simp [hasHdr, headColon]

theorem hasHdr_prepend (h : Char) (s a : Str) (b : Bool)
    (hs : hasHdr h (lsAfter b a) s = true) : hasHdr h b (a ++ s) = true := by
  induction a generalizing b with
  | nil => exact hs
  | cons c a ih =>
    simp only [List.cons_append, hasHdr, Bool.or_eq_true]
    exact Or.inr (ih (c == '\n') hs)

theorem hasHdr_here (h : Char) (a w : Str) (b : Bool) (hls : lsAfter b a = true) :
    hasHdr h b (a ++ h :: ':' :: w) = true := by
  apply hasHdr_prepend
  rw [hls]
  exact hasHdr_cons2 h w

theorem hasHdr_append_right (h : Char) (w u : Str) (b : Bool)
    (hu : hasHdr h b u = true) : hasHdr h b (u ++ w) = true := by
  induction u generalizing b with
  | nil => simp [hasHdr] at hu
  | cons c u' ih =>
    simp only [hasHdr, Bool.or_eq_true, Bool.and_eq_true] at hu
    simp only [List.cons_append, hasHdr, Bool.or_eq_true, Bool.and_eq_true]
    rcases hu with ⟨⟨hb, hc⟩, hcol⟩ | hrec
    · exact Or.inl ⟨⟨hb, hc⟩, headColon_append_true u' w hcol⟩
    · exact Or.inr (ih _ hrec)

theorem hasHdr_split (h : Char) (v : Str)
    (hv : v = [] ∨ ∃ v', v = '\n' :: v') :
    ∀ (u : Str) (b : Bool), hasHdr h b (u ++ v) = true →
      hasHdr h b u = true ∨ hasHdr h (lsAfter b u) v = true := by
  intro u
  induction u with
  | nil => intro b hb; exact Or.inr hb
  | cons c u' ih =>
    intro b hb
    simp only [List.cons_append, hasHdr, Bool.or_eq_true, Bool.and_eq_true] at hb
    rcases hb with ⟨⟨hb1, hc⟩, hcol⟩ | hrec
    · cases u' with
      | nil =>
        exfalso
        rcases hv with rfl | ⟨v', rfl⟩
        · simp [headColon] at hcol
        · have h2 : (('\n' == ':') : Bool) = true := hcol
          exact absurd h2 (by decide)
      | cons c2 u'' =>
        left
        simp only [hasHdr, Bool.or_eq_true, Bool.and_eq_true]
        exact Or.inl ⟨⟨hb1, hc⟩, by simpa [headColon] using hcol⟩
    · rcases ih (c == '\n') hrec with h1 | h2
      · left
        simp only [hasHdr, Bool.or_eq_true]
        exact Or.inr h1
      · right
        exact h2

theorem hasHdr_flag_irrel (h : Char) (v : Str) (b1 b2 : Bool)
    (hv : v = [] ∨ ∃ v', v = '\n' :: v') (hne : h ≠ '\n') :
    hasHdr h b1 v = hasHdr h b2 v := by
  rcases hv with rfl | ⟨v', rfl⟩
  · rfl
  · have hnh : ('\n' == h) = false := beq_eq_false_iff_ne.mpr (Ne.symm hne)
    simp [hasHdr, hnh]

theorem dropToEol_shape (l : Str) :
    dropToEol l = [] ∨ ∃ v', dropToEol l = '\n' :: v' := by
  induction l with
  | nil => exact Or.inl rfl
  | cons c l' ih =>
    by_cases hc : (c == '\n') = true
    · right
      have hceq : c = '\n' := beq_iff_eq.mp hc
      exact ⟨l', by simp [dropToEol, List.dropWhile, hc, hceq]⟩
    · have hc' : (c == '\n') = false := by
        cases hcc : (c == '\n')
        · rfl
        · exact absurd hcc hc
      simpa [dropToEol, List.dropWhile, hc'] using ih

theorem takeToEol_append_dropToEol (l : Str) : takeToEol l ++ dropToEol l = l := by
  unfold takeToEol dropToEol
  exact List.takeWhile_append_dropWhile _ _

theorem insertAfterX_decomp (ins : Str) :
    ∀ (s : Str) (b : Bool), hasHdr 'X' b s = true →
      ∃ u v, s = u ++ v ∧ insertAfterX ins b s = u ++ ins ++ v ∧
        (v = [] ∨ ∃ v', v = '\n' :: v') := by
  intro s
  induction s with
  | nil => intro b hb; simp [hasHdr] at hb
  | cons c rest ih =>
    intro b hb
    by_cases hg : (b && (c == 'X') && headColon rest) = true
    · refine ⟨c :: takeToEol rest, dropToEol rest, ?_, ?_, dropToEol_shape rest⟩
      · simp [takeToEol_append_dropToEol]
      · simp [insertAfterX, hg, List.append_assoc]
    · have hb' : hasHdr 'X' (c == '\n') rest = true := by
        simp only [hasHdr, Bool.or_eq_true] at hb
        rcases hb with h1 | h2
        · exact absurd h1 hg
        · exact h2
      obtain ⟨u, v, hsv, hres, hv⟩ := ih (c == '\n') hb'
      exact ⟨c :: u, v, by simp [hsv], by simp [insertAfterX, hg, hres], hv⟩

theorem hasHdr_insert_preserved (ins : Str) (h : Char) (hne : h ≠ '\n') (s : Str)
    (hX : hasHdr 'X' true s = true) (hh : hasHdr h true s = true) :
    hasHdr h true (insertAfterX ins true s) = true := by
  obtain ⟨u, v, hs, hres, hv⟩ := insertAfterX_decomp ins s true hX
  rw [hres]
  rw [hs] at hh
  rcases hasHdr_split h v hv u true hh with h1 | h2
  · have := hasHdr_append_right h (ins ++ v) u true h1
    simpa [List.append_assoc] using this
  · have h2' : hasHdr h (lsAfter true (u ++ ins)) v = true := by
      rw [hasHdr_flag_irrel h v (lsAfter true (u ++ ins)) (lsAfter true u) hv hne]
      exact h2
    have := hasHdr_prepend h v (u ++ ins) true h2'
    simpa [List.append_assoc] using this

theorem hasHdr_insert_created (h : Char) (w s : Str)
    (hX : hasHdr 'X' true s = true) :
    hasHdr h true (insertAfterX ('\n' :: h :: ':' :: w) true s) = true := by
  obtain ⟨u, v, _, hres, _⟩ := insertAfterX_decomp ('\n' :: h :: ':' :: w) s true hX
  rw [hres]
  have heq : u ++ ('\n' :: h :: ':' :: w) ++ v
      = (u ++ ['\n']) ++ (h :: ':' :: (w ++ v)) := by
    simp [List.append_assoc]
  rw [heq]
  apply hasHdr_here
  rw [lsAfter_append]
  rfl

theorem xColonTail_imp (l : Str) (hl : xColonTail l = true) : headColon l = true := by
  cases l with
  | nil => simp [xColonTail] at hl
  | cons c r =>
    simp only [xColonTail, Bool.and_eq_true] at hl
    simpa [headColon] using hl.1

theorem hdrNlTail_imp (l : Str) (hl : hdrNlTail l = true) : headColon l = true := by
  cases l with
  | nil => simp [hdrNlTail] at hl
  | cons c r =>
    simp only [hdrNlTail, Bool.and_eq_true] at hl
    simpa [headColon] using hl.1

theorem hasXOne_imp (s : Str) : ∀ b, hasXOne b s = true → hasHdr 'X' b s = true := by
  induction s with
  | nil => intro b hb; simp [hasXOne] at hb
  | cons c rest ih =>
    intro b hb
    simp only [hasXOne, Bool.or_eq_true] at hb
    simp only [hasHdr, Bool.or_eq_true]
    rcases hb with h1 | hrec
    · simp only [Bool.and_eq_true] at h1 ⊢
      exact Or.inl ⟨h1.1, xColonTail_imp rest h1.2⟩
    · exact Or.inr (ih _ hrec)

theorem hasHeaderNl_imp (h : Char) (s : Str) :
    ∀ b, hasHeaderNl h b s = true → hasHdr h b s = true := by
  induction s with
  | nil => intro b hb; simp [hasHeaderNl] at hb
  | cons c rest ih =>
    intro b hb
    simp only [hasHeaderNl, Bool.or_eq_true] at hb
    simp only [hasHdr, Bool.or_eq_true]
    rcases hb with h1 | hrec
    · simp only [Bool.and_eq_true] at h1 ⊢
      exact Or.inl ⟨h1.1, hdrNlTail_imp rest h1.2⟩
    · exact Or.inr (ih _ hrec)

theorem findTitle_imp (s : Str) :
    ∀ b g, findTitleFrom b s = some g → hasHdr 'T' b s = true := by
  induction s with
  | nil => intro b g hb; simp [findTitleFrom] at hb
  | cons c rest ih =>
    intro b g hb
    by_cases hg : (b && (c == 'T') && headColon rest) = true
    · simp only [hasHdr, Bool.or_eq_true]
      exact Or.inl hg
    · simp only [findTitleFrom, if_neg hg] at hb
      simp only [hasHdr, Bool.or_eq_true]
      exact Or.inr (ih _ g hb)

theorem findTitleFrom_cons (b : Bool) (c : Char) (rest : Str) :
    findTitleFrom b (c :: rest) =
      if b && (c == 'T') && headColon rest then some (titleCapture rest)
      else findTitleFrom (c == '\n') rest := rfl

theorem findTitle_append (w : Str) (hw : headColon w = false) :
    ∀ (a : Str) (b : Bool), hasHdr 'T' b a = false →
      findTitleFrom b (a ++ w) = findTitleFrom (lsAfter b a) w := by
  intro a
  induction a with
  | nil => intro b _; rfl
  | cons c a' ih =>
    intro b ha
    have ha' : (b && (c == 'T') && headColon a') = false ∧
        hasHdr 'T' (c == '\n') a' = false := by
      constructor
      · cases hx : (b && (c == 'T') && headColon a')
        · rfl
        · exfalso
          have : hasHdr 'T' b (c :: a') = true := by
            simp only [hasHdr, Bool.or_eq_true]
            exact Or.inl hx
          rw [ha] at this
          exact Bool.false_ne_true this
      · cases hx : hasHdr 'T' (c == '\n') a'
        · rfl
        · exfalso
          have : hasHdr 'T' b (c :: a') = true := by
            simp only [hasHdr, Bool.or_eq_true]
            exact Or.inr hx
          rw [ha] at this
          exact Bool.false_ne_true this
    have hguard : (b && (c == 'T') && headColon (a' ++ w)) = false := by
      cases a' with
      | nil =>
        rw [List.nil_append]
        cases hb1 : (b && (c == 'T'))
        · simp
        · simp [hw]
      | cons c2 a'' =>
        have : headColon ((c2 :: a'') ++ w) = headColon (c2 :: a'') := by
          simp [headColon]
        rw [List.cons_append] at this ⊢
        rw [this]
        exact ha'.1
    rw [List.cons_append, findTitleFrom_cons,
      if_neg (by rw [hguard]; exact Bool.false_ne_true)]
    exact ih (c == '\n') ha'.2

theorem takeWhile_all_append (p : Char → Bool) (l1 l2 : Str)
    (h : ∀ c ∈ l1, p c = true) : (l1 ++ l2).takeWhile p = l1 ++ l2.takeWhile p := by
  induction l1 with
  | nil => rfl
  | cons c l ih =>
    have hc := h c (List.mem_cons_self c l)
    simp [List.takeWhile_cons, hc, ih (fun x hx => h x (List.mem_cons_of_mem _ hx))]

/-! ### Step-level lemmas for the normalizer pipeline -/

theorem titleStep_eq_none (s : Str) (hf : findTitleFrom true s = none) :
    titleStep s = (defaultTitle, defaultTitleLine ++ s) := by
  unfold titleStep; rw [hf]

theorem titleStep_eq_empty (s : Str) (hf : findTitleFrom true s = some []) :
    titleStep s = (defaultTitle, defaultTitleLine ++ s) := by
  unfold titleStep; rw [hf]; rfl

theorem titleStep_eq_some (s g : Str) (hg : g ≠ []) (hf : findTitleFrom true s = some g) :
    titleStep s = (g, s) := by
  unfold titleStep; rw [hf]; exact if_neg hg

theorem hasHdr_defaultTitleLine_prepend (s : Str) :
    hasHdr 'T' true (defaultTitleLine ++ s) = true := by
  have heq : defaultTitleLine ++ s = 'T' :: ':' :: (defaultTitle ++ '\n' :: s) := by
    simp [defaultTitleLine]
  rw [heq]
  exact hasHdr_cons2 'T' _

theorem titleStep_hasT (s : Str) : hasHdr 'T' true (titleStep s).2 = true := by
  rcases hf : findTitleFrom true s with _ | g
  · rw [titleStep_eq_none s hf]
    exact hasHdr_defaultTitleLine_prepend s
  · by_cases hg : g = []
    · subst hg
      rw [titleStep_eq_empty s hf]
      exact hasHdr_defaultTitleLine_prepend s
    · rw [titleStep_eq_some s g hg hf]
      exact findTitle_imp s true g hf

theorem hasHdr_prepend_line (h : Char) (a s : Str) (ha : lsAfter true a = true)
    (hs : hasHdr h true s = true) : hasHdr h true (a ++ s) = true := by
  apply hasHdr_prepend
  rw [ha]
  exact hs

theorem xStep_hasX (s : Str) : hasHdr 'X' true (xStep s) = true := by
  unfold xStep
  by_cases hx : hasXOne true s = true
  · rw [if_pos hx]
    exact hasXOne_imp s true hx
  · rw [if_neg hx]
    have heq : xLine ++ s = 'X' :: ':' :: ('1' :: '\n' :: s) := rfl
    rw [heq]
    exact hasHdr_cons2 'X' _

theorem xStep_preserves (h : Char) (s : Str) (hs : hasHdr h true s = true) :
    hasHdr h true (xStep s) = true := by
  unfold xStep
  by_cases hx : hasXOne true s = true
  · rw [if_pos hx]; exact hs
  · rw [if_neg hx]
    exact hasHdr_prepend_line h xLine s (by decide) hs

theorem headerStep_creates (h : Char) (w s : Str) (hX : hasHdr 'X' true s = true) :
    hasHdr h true (headerStep h ('\n' :: h :: ':' :: w) s) = true := by
  unfold headerStep
  by_cases hk : hasHeaderNl h true s = true
  · rw [if_pos hk]
    exact hasHeaderNl_imp h s true hk
  · rw [if_neg hk]
    exact hasHdr_insert_created h w s hX

theorem headerStep_preserves (h hdr : Char) (ins s : Str) (hne : hdr ≠ '\n')
    (hX : hasHdr 'X' true s = true) (hs : hasHdr hdr true s = true) :
    hasHdr hdr true (headerStep h ins s) = true := by
  unfold headerStep
  by_cases hk : hasHeaderNl h true s = true
  · rw [if_pos hk]; exact hs
  · rw [if_neg hk]
    exact hasHdr_insert_preserved ins hdr hne s hX hs

theorem contentStep_preserves (h : Char) (s : Str) (hs : hasHdr h true s = true) :
    hasHdr h true (contentStep s) = true := by
  unfold contentStep
  by_cases hc : (!(hasChar '|' s) && !(hasPitch s)) = true
  · rw [if_pos hc]
    exact hasHdr_append_right h placeholderBar s true hs
  · rw [if_neg hc]; exact hs

theorem contentStep_content (s : Str) :
    (hasChar '|' (contentStep s) || hasPitch (contentStep s)) = true := by
  unfold contentStep
  by_cases hc : (!(hasChar '|' s) && !(hasPitch s)) = true
  · rw [if_pos hc]
    have hbar : hasChar '|' (s ++ placeholderBar) = true := by
      unfold hasChar
      rw [List.any_append]
      have h2 : placeholderBar.any (fun x => x == '|') = true := by decide
      rw [h2, Bool.or_true]
    rw [hbar, Bool.true_or]
  · rw [if_neg hc]
    cases ha : hasChar '|' s
    · cases hb : hasPitch s
      · exact absurd (by rw [ha, hb]; rfl : (!(hasChar '|' s) && !(hasPitch s)) = true) hc
      · rfl
    · rfl

theorem parseAbc_body (raw : Str) :
    (parseAbcResponse raw).body = contentStep (structComplete raw) := by
  simp only [parseAbcResponse]

theorem parseAbc_title (raw : Str) :
    (parseAbcResponse raw).title = (titleStep (trim (stripFences raw))).1 := by
  simp only [parseAbcResponse]

/-! ### Claim theorems -/

/-- C1 (counterexample): the claim that the output body contains *exactly one*
index line with value "1" and *exactly one* title line is false.  For the input
`"X:1\nX:1\nT:a\nT:b"` the output body contains two `X:` lines and two `T:`
lines, and for the input `"X:\n1\nT:t"` — on which `/^X:\s*1$/m` matches
because `\s*` crosses the newline — the output body contains no index line
with value 1 at all (the code's own index test rejects its output). -/
theorem c1_cex :
    countHdr 'X' true (parseAbcResponse ("X:1\nX:1\nT:a\nT:b".data)).body = 2 ∧
    countHdr 'T' true (parseAbcResponse ("X:1\nX:1\nT:a\nT:b".data)).body = 2 ∧
    hasXOne true (parseAbcResponse ("X:\n1\nT:t".data)).body = false :=
  ⟨rfl, rfl, rfl⟩

set_option maxHeartbeats 1000000 in
/-- C1 (amended): `parseAbcResponse` is total, and for every raw input the
returned body contains at least one line starting with `X:`, at least one
title line (`T:`), at least one key line (`K:`), at least one meter line
(`M:`), at least one tempo line (`Q:`), and at least one bar-separator
character or pitch-letter character.  ("Exactly one" and "with value 1" from
the original claim do not hold.) -/
theorem c1_amended (raw : Str) :
    hasHdr 'X' true (parseAbcResponse raw).body = true ∧
    hasHdr 'T' true (parseAbcResponse raw).body = true ∧
    hasHdr 'K' true (parseAbcResponse raw).body = true ∧
    hasHdr 'M' true (parseAbcResponse raw).body = true ∧
    hasHdr 'Q' true (parseAbcResponse raw).body = true ∧
    (hasChar '|' (parseAbcResponse raw).body || hasPitch (parseAbcResponse raw).body) = true := by
  have hT1 : hasHdr 'T' true (titleStep (trim (stripFences raw))).2 = true :=
    titleStep_hasT (trim (stripFences raw))
  have hX2 : hasHdr 'X' true (xStep (titleStep (trim (stripFences raw))).2) = true :=
    xStep_hasX _
  have hT2 : hasHdr 'T' true (xStep (titleStep (trim (stripFences raw))).2) = true :=
    xStep_preserves 'T' _ hT1
  have hK3 : hasHdr 'K' true
      (headerStep 'K' kIns (xStep (titleStep (trim (stripFences raw))).2)) = true :=
    headerStep_creates 'K' ['C'] _ hX2
  have hX3 : hasHdr 'X' true
      (headerStep 'K' kIns (xStep (titleStep (trim (stripFences raw))).2)) = true :=
    headerStep_preserves 'K' 'X' kIns _ (by decide) hX2 hX2
  have hT3 : hasHdr 'T' true
      (headerStep 'K' kIns (xStep (titleStep (trim (stripFences raw))).2)) = true :=
    headerStep_preserves 'K' 'T' kIns _ (by decide) hX2 hT2
  have hM4 : hasHdr 'M' true
      (headerStep 'M' mIns (headerStep 'K' kIns (xStep (titleStep (trim (stripFences raw))).2))) = true :=
    headerStep_creates 'M' ['4', '/', '4'] _ hX3
  have hX4 : hasHdr 'X' true
      (headerStep 'M' mIns (headerStep 'K' kIns (xStep (titleStep (trim (stripFences raw))).2))) = true :=
    headerStep_preserves 'M' 'X' mIns _ (by decide) hX3 hX3
  have hT4 : hasHdr 'T' true
      (headerStep 'M' mIns (headerStep 'K' kIns (xStep (titleStep (trim (stripFences raw))).2))) = true :=
    headerStep_preserves 'M' 'T' mIns _ (by decide) hX3 hT3
  have hK4 : hasHdr 'K' true
      (headerStep 'M' mIns (headerStep 'K' kIns (xStep (titleStep (trim (stripFences raw))).2))) = true :=
    headerStep_preserves 'M' 'K' mIns _ (by decide) hX3 hK3
  have hQ5 : hasHdr 'Q' true (structComplete raw) = true :=
    headerStep_creates 'Q' "1/4=120".data _ hX4
  have hX5 : hasHdr 'X' true (structComplete raw) = true :=
    headerStep_preserves 'Q' 'X' qIns _ (by decide) hX4 hX4
  have hT5 : hasHdr 'T' true (structComplete raw) = true :=
    headerStep_preserves 'Q' 'T' qIns _ (by decide) hX4 hT4
  have hK5 : hasHdr 'K' true (structComplete raw) = true :=
    headerStep_preserves 'Q' 'K' qIns _ (by decide) hX4 hK4
  have hM5 : hasHdr 'M' true (structComplete raw) = true :=
    headerStep_preserves 'Q' 'M' qIns _ (by decide) hX4 hM4
  rw [parseAbc_body raw]
  exact ⟨contentStep_preserves 'X' (structComplete raw) hX5,
    contentStep_preserves 'T' (structComplete raw) hT5,
    contentStep_preserves 'K' (structComplete raw) hK5,
    contentStep_preserves 'M' (structComplete raw) hM5,
    contentStep_preserves 'Q' (structComplete raw) hQ5,
    contentStep_content (structComplete raw)⟩

set_option maxHeartbeats 4000000 in
/-- C3 (code bug): re-running the normalizer on its own output duplicates the
key line.  For the input `"X:1"`, the first run produces a body whose last
line is `K:C` with no trailing newline; the key-presence regex
`/^K:\s*.*\n/m` requires a newline *after* the key line, so the second run
fails to see the present key line (contradicting the comment "Ensure K: is
present") and inserts a second `K:C`. -/
theorem c3_bug_eval :
    countHdr 'K' true (parseAbcResponse ("X:1".data)).body = 1 ∧
    countHdr 'K' true (parseAbcResponse (parseAbcResponse ("X:1".data)).body).body = 2 :=
  ⟨rfl, rfl⟩

set_option maxHeartbeats 4000000 in
/-- C4 (counterexample): the claim that every raw input without a bar
separator and without a pitch letter gets a placeholder bar appended is false
for the empty input: the content check runs on the structurally-completed
text, and the injected defaults ("Untitled Composition", "K:C") already
contain characters in `[a-gA-G]`, so nothing is appended and the output is
not strictly longer than the structurally-completed text. -/
theorem c4_cex :
    hasChar '|' ([] : Str) = false ∧ hasPitch ([] : Str) = false ∧
    (parseAbcResponse ([] : Str)).body = structComplete ([] : Str) ∧
    ¬ (structComplete ([] : Str)).length < (parseAbcResponse ([] : Str)).body.length :=
  ⟨rfl, rfl, rfl, by decide⟩

/-- C4 (amended): whenever the *structurally-completed* text (not the raw
input) contains neither a bar-separator character nor a pitch letter, the
normalizer appends the placeholder bar `"\nC |"` and the output body is
strictly longer than the structurally-completed text. -/
theorem c4_amended (raw : Str)
    (h1 : hasChar '|' (structComplete raw) = false)
    (h2 : hasPitch (structComplete raw) = false) :
    (parseAbcResponse raw).body = structComplete raw ++ placeholderBar ∧
    (structComplete raw).length < (parseAbcResponse raw).body.length := by
  have hb : (parseAbcResponse raw).body = structComplete raw ++ placeholderBar := by
    rw [parseAbc_body raw]
    unfold contentStep
    rw [h1, h2]
    rfl
  refine ⟨hb, ?_⟩
  rw [hb, List.length_append]
  simp [placeholderBar]

set_option maxHeartbeats 4000000 in
/-- C4 (witness): a raw input whose structurally-completed text has no bar
separator and no pitch letter; the placeholder bar is appended. -/
theorem c4_amended_witness :
    hasChar '|' (structComplete ("T:!!\nX:1\nK:!\nM:4/4\nQ:1/4=120\nz".data)) = false ∧
    hasPitch (structComplete ("T:!!\nX:1\nK:!\nM:4/4\nQ:1/4=120\nz".data)) = false ∧
    ((parseAbcResponse ("T:!!\nX:1\nK:!\nM:4/4\nQ:1/4=120\nz".data)).body
        = structComplete ("T:!!\nX:1\nK:!\nM:4/4\nQ:1/4=120\nz".data) ++ placeholderBar ∧
      (structComplete ("T:!!\nX:1\nK:!\nM:4/4\nQ:1/4=120\nz".data)).length
        < (parseAbcResponse ("T:!!\nX:1\nK:!\nM:4/4\nQ:1/4=120\nz".data)).body.length) :=
  ⟨by decide, by decide, c4_amended _ (by decide) (by decide)⟩

theorem titleCapture_cons (c : Char) (r2 : Str) :
    titleCapture (c :: r2) =
      if c == ':' then (r2.dropWhile isSpace).takeWhile (fun x => !(x == '\n')) else [] := rfl

/-- C8: if the first title line of the cleaned input (no earlier line starts
with `T:`, the line sits at a line start) is exactly `T:My Song` (with the
line ending there: `rest` is empty or starts with a newline), then the
extracted title is exactly `"My Song"` and the title step leaves the body
unchanged — no default title line is injected.  `rest` is arbitrary, so any
later title lines are ignored: only the first one is used. -/
theorem c8_first_title_wins (raw a rest : Str)
    (hclean : trim (stripFences raw) = a ++ ('T' :: ':' :: "My Song".data) ++ rest)
    (haT : hasHdr 'T' true a = false)
    (hls : lsAfter true a = true)
    (hrest : rest = [] ∨ ∃ r', rest = '\n' :: r') :
    (parseAbcResponse raw).title = "My Song".data ∧
    (titleStep (trim (stripFences raw))).2 = trim (stripFences raw) := by
  have hmy : "My Song".data = 'M' :: 'y' :: ' ' :: 'S' :: 'o' :: 'n' :: 'g' :: [] := rfl
  have hfind : findTitleFrom true (trim (stripFences raw)) = some ("My Song".data) := by
    rw [hclean]
    have h1 : a ++ ('T' :: ':' :: "My Song".data) ++ rest
        = a ++ ('T' :: ':' :: ("My Song".data ++ rest)) := by
      simp [List.append_assoc]
    rw [h1, findTitle_append ('T' :: ':' :: ("My Song".data ++ rest)) rfl a true haT, hls]
    rw [findTitleFrom_cons]
    rw [if_pos (by simp [headColon])]
    have hcap : titleCapture (':' :: ("My Song".data ++ rest)) = "My Song".data := by
      rw [titleCapture_cons]
      rw [if_pos (show ((':' : Char) == ':') = true from rfl)]
      have hdrop : ("My Song".data ++ rest).dropWhile isSpace = "My Song".data ++ rest := by
        rw [hmy]
        simp [List.dropWhile, isSpace]
      rw [hdrop, hmy]
      rw [takeWhile_all_append (fun x => !(x == '\n'))
        ('M' :: 'y' :: ' ' :: 'S' :: 'o' :: 'n' :: 'g' :: []) rest (by decide)]
      have htr : rest.takeWhile (fun x => !(x == '\n')) = [] := by
        rcases hrest with rfl | ⟨r', rfl⟩
        · rfl
        · simp [List.takeWhile]
      rw [htr, List.append_nil]
    rw [hcap]
  have hne : "My Song".data ≠ [] := by decide
  constructor
  · rw [parseAbc_title raw, titleStep_eq_some (trim (stripFences raw)) ("My Song".data) hne hfind]
  · rw [titleStep_eq_some (trim (stripFences raw)) ("My Song".data) hne hfind]

/-- C8 (witness): the raw input `"T:My Song\nT:Second\nK:C"` has first title
line `T:My Song`; the extracted title is `"My Song"` and the second title
line is ignored; no default title line is injected. -/
theorem c8_witness :
    (parseAbcResponse ("T:My Song\nT:Second\nK:C".data)).title = "My Song".data ∧
    (titleStep (trim (stripFences ("T:My Song\nT:Second\nK:C".data)))).2
      = trim (stripFences ("T:My Song\nT:Second\nK:C".data)) :=
  c8_first_title_wins ("T:My Song\nT:Second\nK:C".data) [] ("\nT:Second\nK:C".data)
    (by decide) rfl rfl (Or.inr ⟨"T:Second\nK:C".data, rfl⟩)

/-- C10 (counterexample): the claim says an empty-text title line makes the
normalizer fall back to the default title.  But JS `\s` matches newlines, so
for the input `"T:\nK:C"` the regex `/^T:\s*(.*)$/m` skips past the newline
and captures the next line: the extracted title is `"K:C"`, not
`"Untitled Composition"`, and no default title line is prepended. -/
theorem c10_cex :
    (parseAbcResponse ("T:\nK:C".data)).title = "K:C".data ∧
    "K:C".data ≠ defaultTitle :=
  ⟨rfl, by decide⟩

/-- C10 (amended): the normalizer treats the title as absent only when the
first title line's `T:` prefix is followed by nothing at all (the cleaned
input ends right after `T:`, which after trimming also covers `T:` followed
only by whitespace): then the default title is returned and the default title
line is prepended, so the title-step body contains both the original empty
title line and the injected default.  When non-whitespace text follows, even
on later lines, that text becomes the title instead (see the
counterexample). -/
theorem c10_amended (raw a : Str)
    (hclean : trim (stripFences raw) = a ++ ['T', ':'])
    (haT : hasHdr 'T' true a = false)
    (hls : lsAfter true a = true) :
    (parseAbcResponse raw).title = defaultTitle ∧
    (titleStep (trim (stripFences raw))).2 = defaultTitleLine ++ (a ++ ['T', ':']) := by
  have hfind : findTitleFrom true (trim (stripFences raw)) = some [] := by
    rw [hclean]
    rw [findTitle_append ['T', ':'] rfl a true haT, hls]
    rw [findTitleFrom_cons]
    rw [if_pos (by simp [headColon])]
    rfl
  constructor
  · rw [parseAbc_title raw, titleStep_eq_empty (trim (stripFences raw)) hfind]
  · rw [titleStep_eq_empty (trim (stripFences raw)) hfind, hclean]

/-- C10 (witness): the raw input `"X:1\nT:"` whose title line is the final
`T:`; the default title is returned and the default title line is prepended
in front of the body that still contains the original `T:` line. -/
theorem c10_amended_witness :
    (parseAbcResponse ("X:1\nT:".data)).title = defaultTitle ∧
    (titleStep (trim (stripFences ("X:1\nT:".data)))).2
      = defaultTitleLine ++ ("X:1\n".data ++ ['T', ':']) :=
  c10_amended ("X:1\nT:".data) ("X:1\n".data) (by decide) (by decide) rfl

/-- C5: when the rendering collaborator returns an empty visual list, the
controller ends in the visual-error state (visual error message set, no
playback controls) and the audio-priming step is never reached: the
synthesizer-construction count and the audio-context count are unchanged for
that pipeline run. -/
theorem c5_visual_error_precedes_audio (env : EffectEnv) (abc : Str) (width : Nat)
    (st : EffectState) (hL : env.abcjsLoaded = true) (hA : abc ≠ [])
    (hR : env.renderAbc abc width = []) :
    (runEffect env abc width true st).renderError = some visualErrorMsg ∧
    (runEffect env abc width true st).audioDom = false ∧
    (runEffect env abc width true st).synthCount = st.synthCount ∧
    (runEffect env abc width true st).ctxCreated = st.ctxCreated := by
  refine ⟨?_, ?_, ?_, ?_⟩ <;> simp [runEffect, hL, hA, hR]

/-- C5 (witness): a concrete environment whose visual render returns the
empty list; starting from the pristine state the synthesizer constructor is
invoked zero times. -/
theorem c5_witness :
    (runEffect ⟨true, fun _ _ => [], Except.ok (), Except.ok ()⟩
        ('X' :: ':' :: '1' :: []) 500 true EffectState.initial).renderError
      = some visualErrorMsg ∧
    (runEffect ⟨true, fun _ _ => [], Except.ok (), Except.ok ()⟩
        ('X' :: ':' :: '1' :: []) 500 true EffectState.initial).audioDom = false ∧
    (runEffect ⟨true, fun _ _ => [], Except.ok (), Except.ok ()⟩
        ('X' :: ':' :: '1' :: []) 500 true EffectState.initial).synthCount = 0 ∧
    (runEffect ⟨true, fun _ _ => [], Except.ok (), Except.ok ()⟩
        ('X' :: ':' :: '1' :: []) 500 true EffectState.initial).ctxCreated = 0 :=
  c5_visual_error_precedes_audio ⟨true, fun _ _ => [], Except.ok (), Except.ok ()⟩
    ('X' :: ':' :: '1' :: []) 500 EffectState.initial rfl (by simp) rfl

/-- C2 (counterexample): the claim that after an audio-priming failure the
already-rendered visual score "remains displayed" is false: the component's
JSX (lines 187-202) renders the error box *instead of* the sheet-music
container whenever `renderError` is set, so the score is hidden even though
the visual DOM content written by the successful render is non-empty. -/
theorem c2_cex :
    (runEffect ⟨true, fun _ _ => [1], Except.ok (), Except.error ("boom".data)⟩
        ('X' :: ':' :: '1' :: []) 500 true EffectState.initial).visualDom = [1] ∧
    renderView (runEffect ⟨true, fun _ _ => [1], Except.ok (), Except.error ("boom".data)⟩
        ('X' :: ':' :: '1' :: []) 500 true EffectState.initial)
      = View.errorBox (audioErrorMsg ("boom".data)) :=
  ⟨rfl, rfl⟩

/-- C2 (amended): when the visual render succeeds but the asynchronous init
or prime step fails, the controller ends in the audio-error state (audio
error message including the underlying failure text; no playback controls);
the visual DOM content produced by the render is retained, non-empty and not
cleared by the failure — but the component's view then shows the error box
in place of the sheet-music container, so the retained score is hidden
rather than displayed. -/
theorem c2_amended (env : EffectEnv) (abc : Str) (width : Nat) (st : EffectState)
    (e : Str) (hL : env.abcjsLoaded = true) (hA : abc ≠ [])
    (hR : env.renderAbc abc width ≠ [])
    (hfail : env.initResult = Except.error e ∨
      (env.initResult = Except.ok () ∧ env.primeResult = Except.error e)) :
    (runEffect env abc width true st).renderError = some (audioErrorMsg e) ∧
    (runEffect env abc width true st).audioDom = false ∧
    (runEffect env abc width true st).visualDom = env.renderAbc abc width ∧
    (runEffect env abc width true st).visualDom ≠ [] ∧
    renderView (runEffect env abc width true st) = View.errorBox (audioErrorMsg e) := by
  cases hrv : env.renderAbc abc width with
  | nil => exact absurd hrv hR
  | cons v vs =>
    rcases hfail with hinit | ⟨hinit, hprime⟩
    · refine ⟨?_, ?_, ?_, ?_, ?_⟩ <;>
        simp [runEffect, renderView, hL, hA, hrv, hinit]
    · refine ⟨?_, ?_, ?_, ?_, ?_⟩ <;>
        simp [runEffect, renderView, hL, hA, hrv, hinit, hprime]

/-- C2 (witness): concrete instantiation of the amended claim with a failing
prime step. -/
theorem c2_amended_witness :
    (runEffect ⟨true, fun _ _ => [1], Except.ok (), Except.error ("boom".data)⟩
        ('X' :: ':' :: '1' :: []) 500 true EffectState.initial).renderError
      = some (audioErrorMsg ("boom".data)) ∧
    (runEffect ⟨true, fun _ _ => [1], Except.ok (), Except.error ("boom".data)⟩
        ('X' :: ':' :: '1' :: []) 500 true EffectState.initial).audioDom = false ∧
    (runEffect ⟨true, fun _ _ => [1], Except.ok (), Except.error ("boom".data)⟩
        ('X' :: ':' :: '1' :: []) 500 true EffectState.initial).visualDom
      = (fun (_ : Str) (_ : Nat) => [1]) ('X' :: ':' :: '1' :: []) 500 ∧
    (runEffect ⟨true, fun _ _ => [1], Except.ok (), Except.error ("boom".data)⟩
        ('X' :: ':' :: '1' :: []) 500 true EffectState.initial).visualDom ≠ [] ∧
    renderView (runEffect ⟨true, fun _ _ => [1], Except.ok (), Except.error ("boom".data)⟩
        ('X' :: ':' :: '1' :: []) 500 true EffectState.initial)
      = View.errorBox (audioErrorMsg ("boom".data)) :=
  c2_amended ⟨true, fun _ _ => [1], Except.ok (), Except.error ("boom".data)⟩
    ('X' :: ':' :: '1' :: []) 500 EffectState.initial ("boom".data)
    rfl (by simp) (by simp) (Or.inr ⟨rfl, rfl⟩)

/-- C6 (counterexample): the export operation does not consult the pipeline
state and there is no "not-ready" failure: with the component freshly mounted
(pipeline state pristine, not Ready: no playback controls) the MIDI export
succeeds anyway, because `handleDownloadMidi` performs its own render and
builds its own synthesizer. -/
theorem c6_cex :
    EffectState.initial.audioDom = false ∧
    (handleDownloadMidi ⟨true, fun _ => [1], Except.ok (), Except.ok [7]⟩
        ('M' :: 'y' :: []) ('X' :: ':' :: '1' :: []) true).outcome
      = ExportOutcome.downloaded [7] ('M' :: 'y' :: '.' :: 'm' :: 'i' :: 'd' :: []) :=
  ⟨rfl, rfl⟩

/-- C6 (amended): `handleDownloadMidi` ignores the render pipeline's state.
Whenever the notation is non-empty, the collaborator is loaded, the visual
ref exists, and the collaborator's own render/init/getMidiFile steps succeed,
the export downloads exactly the collaborator's bytes under the filename
`(title or "untitled") + ".mid"` (which always ends in the audio
extension) — regardless of whether the pipeline ever reached Ready.  All
failure paths produce alerts; no "not-ready" error exists. -/
theorem c6_amended (env : ExportEnv) (title abc : Str) (bytes : List Nat)
    (hA : abc ≠ []) (hL : env.abcjsLoaded = true)
    (hR : env.renderAbc abc ≠ []) (hI : env.initResult = Except.ok ())
    (hB : env.midiBytes = Except.ok bytes) :
    (handleDownloadMidi env title abc true).outcome
      = ExportOutcome.downloaded bytes
          ((if title = [] then "untitled".data else title) ++ ".mid".data) ∧
    ∃ pre, (if title = [] then "untitled".data else title) ++ ".mid".data
      = pre ++ ".mid".data := by
  refine ⟨?_, ⟨_, rfl⟩⟩
  cases hrv : env.renderAbc abc with
  | nil => exact absurd hrv hR
  | cons v vs => simp [handleDownloadMidi, hA, hL, hrv, hI, hB]

/-- C6 (amended, witness): concrete successful export with a pristine
(non-Ready) pipeline state; filename is `My.mid`. -/
theorem c6_amended_witness :
    (handleDownloadMidi ⟨true, fun _ => [1], Except.ok (), Except.ok [7]⟩
        ('M' :: 'y' :: []) ('X' :: ':' :: '1' :: []) true).outcome
      = ExportOutcome.downloaded [7]
          ((if ('M' :: 'y' :: [] : Str) = [] then "untitled".data else 'M' :: 'y' :: [])
            ++ ".mid".data) ∧
    ∃ pre, (if ('M' :: 'y' :: [] : Str) = [] then "untitled".data else 'M' :: 'y' :: [])
      ++ ".mid".data = pre ++ ".mid".data :=
  c6_amended ⟨true, fun _ => [1], Except.ok (), Except.ok [7]⟩
    ('M' :: 'y' :: []) ('X' :: ':' :: '1' :: []) [7]
    (by simp) rfl (by simp) rfl rfl

/-- C7 (counterexample): audio contexts do leak across document transitions.
Two consecutive successful pipeline runs (a document change re-running the
effect) create two audio contexts and close none — the first context is not
closed before the second is created, because the effect has no cleanup. -/
theorem c7_cex :
    (runEffect ⟨true, fun _ _ => [1], Except.ok (), Except.ok ()⟩
        ('X' :: ':' :: '2' :: []) 500 true
        (runEffect ⟨true, fun _ _ => [1], Except.ok (), Except.ok ()⟩
          ('X' :: ':' :: '1' :: []) 500 true EffectState.initial)).ctxCreated = 2 ∧
    (runEffect ⟨true, fun _ _ => [1], Except.ok (), Except.ok ()⟩
        ('X' :: ':' :: '2' :: []) 500 true
        (runEffect ⟨true, fun _ _ => [1], Except.ok (), Except.ok ()⟩
          ('X' :: ':' :: '1' :: []) 500 true EffectState.initial)).ctxClosed = 0 :=
  ⟨rfl, rfl⟩

/-- C7 (amended): each pipeline run that reaches audio priming creates one
fresh audio context; the context is closed only when the init or prime step
fails (the failing run closes its own context).  A successful run never
closes its context, so on a document/width re-render the previous context
stays open and leaks; the MIDI export path likewise creates one additional
context and never closes any. -/
theorem c7_amended (env : EffectEnv) (abc : Str) (width : Nat) (st : EffectState)
    (hL : env.abcjsLoaded = true) (hA : abc ≠ [])
    (hR : env.renderAbc abc width ≠ []) :
    ((env.initResult = Except.ok () ∧ env.primeResult = Except.ok ()) →
      (runEffect env abc width true st).ctxCreated = st.ctxCreated + 1 ∧
      (runEffect env abc width true st).ctxClosed = st.ctxClosed) ∧
    (∀ e, (env.initResult = Except.error e ∨
        (env.initResult = Except.ok () ∧ env.primeResult = Except.error e)) →
      (runEffect env abc width true st).ctxCreated = st.ctxCreated + 1 ∧
      (runEffect env abc width true st).ctxClosed = st.ctxClosed + 1) ∧
    (∀ (eenv : ExportEnv) (title : Str), eenv.abcjsLoaded = true →
      eenv.renderAbc abc ≠ [] →
      (handleDownloadMidi eenv title abc true).ctxClosed = 0) := by
  cases hrv : env.renderAbc abc width with
  | nil => exact absurd hrv hR
  | cons v vs =>
    refine ⟨?_, ?_, ?_⟩
    · rintro ⟨hinit, hprime⟩
      constructor <;> simp [runEffect, hL, hA, hrv, hinit, hprime]
    · rintro e (hinit | ⟨hinit, hprime⟩)
      · constructor <;> simp [runEffect, hL, hA, hrv, hinit]
      · constructor <;> simp [runEffect, hL, hA, hrv, hinit, hprime]
    · intro eenv title heL heR
      cases herv : eenv.renderAbc abc with
      | nil => exact absurd herv heR
      | cons w ws =>
        cases hei : eenv.initResult with
        | error e2 => simp [handleDownloadMidi, hA, heL, herv, hei]
        | ok u =>
          cases heb : eenv.midiBytes with
          | error e2 => simp [handleDownloadMidi, hA, heL, herv, hei, heb]
          | ok bs => simp [handleDownloadMidi, hA, heL, herv, hei, heb]

/-- C7 (amended, witness): one successful run creates one context and closes
none. -/
theorem c7_amended_witness :
    (runEffect ⟨true, fun _ _ => [1], Except.ok (), Except.ok ()⟩
        ('X' :: ':' :: '1' :: []) 500 true EffectState.initial).ctxCreated = 0 + 1 ∧
    (runEffect ⟨true, fun _ _ => [1], Except.ok (), Except.ok ()⟩
        ('X' :: ':' :: '1' :: []) 500 true EffectState.initial).ctxClosed = 0 :=
  (c7_amended ⟨true, fun _ _ => [1], Except.ok (), Except.ok ()⟩
    ('X' :: ':' :: '1' :: []) 500 EffectState.initial rfl (by simp) (by simp)).1
    ⟨rfl, rfl⟩

/-- C9: when the required credential is absent (the environment variable is
unset, or set to the empty string — both falsy in JS), the service module
fails at load time with the configuration error, before the client object is
constructed; since `generateMusic` requires a constructed client, no request
can proceed.  The system never silently continues without the credential. -/
theorem c9_missing_key_fatal (k : Option Str) (hk : k = none ∨ k = some []) :
    initGeminiService k = Except.error configErrMsg := by
  rcases hk with rfl | rfl <;> simp [initGeminiService]

/-- C9 (witness): the unset-variable case fails with the configuration
error. -/
theorem c9_witness : initGeminiService none = Except.error configErrMsg :=
  c9_missing_key_fatal none (Or.inl rfl)
